import Mathlib

/-!
Shallow embedding of the PTCP codec and session (src/ptcp.rs).

Bytes are naturals (each < 256 in a well-formed buffer); Rust `u32` values
are naturals reduced modulo 2^32 exactly where the machine arithmetic does
(`as u32` casts and wrapping `+=`).  The parse functions in the source abort
on malformed input via `assert!`; that fallibility is modelled by returning
`Option`, with `none` standing for the FormatError/panic outcome.
-/

/-- `u32::from_be_bytes([b0,b1,b2,b3])`: big-endian reassembly of four bytes. -/
def u32FromBE (b0 b1 b2 b3 : Nat) : Nat :=
  b0 * 16777216 + b1 * 65536 + b2 * 256 + b3

/-- `u32::to_be_bytes`: big-endian byte decomposition of a `u32` value. -/
def u32ToBE (n : Nat) : List Nat :=
  [n / 16777216 % 256, n / 65536 % 256, n / 256 % 256, n % 256]

/-- Wrapping `u32` subtraction (the release-mode behaviour of `-` on `u32`). -/
def u32WrapSub (a b : Nat) : Nat :=
  (a + 0x100000000 - b % 0x100000000) % 0x100000000

/-- Checked `u32` subtraction: with overflow checks on (debug builds) the
Rust expression `a - b` on `u32` panics when `b > a`; the panic is `none`. -/
def u32CheckedSub (a b : Nat) : Option Nat :=
  if b ≤ a then some (a - b) else none

/-- `PTCPPayload { realm, data }` from src/ptcp.rs. -/
structure PTCPPayload where
  realm : Nat
  data : List Nat
deriving DecidableEq

/-- A payload drawn from the Rust state space: `realm` is a `u32` and
`data` is a `Vec<u8>`. -/
def PTCPPayload.WF (p : PTCPPayload) : Prop :=
  p.realm < 0x100000000 ∧ ∀ b ∈ p.data, b < 256

instance (p : PTCPPayload) : Decidable p.WF :=
  inferInstanceAs (Decidable (_ ∧ _))

/-- `PTCPPayload::parse`: requires ≥ 12 bytes (the match pattern), first byte
0x10, zero padding, and the 16-bit-masked header length equal to the length
of the trailing data (compared as `u32`). -/
def PTCPPayload.parse (buf : List Nat) : Option PTCPPayload :=
  match buf with
  | b0 :: b1 :: b2 :: b3 :: b4 :: b5 :: b6 :: b7 :: b8 :: b9 :: b10 :: b11 :: rest =>
    if b0 = 0x10 then
      let header := u32FromBE b0 b1 b2 b3
      let length := header &&& 0xFFFF
      let realm := u32FromBE b4 b5 b6 b7
      let padding := u32FromBE b8 b9 b10 b11
      if padding = 0 then
        if length = rest.length % 0x100000000 then
          some { realm := realm, data := rest }
        else none
      else none
    else none
  | _ => none

/-- `PTCPPayload::serialize`: header `0x10000000 | (data.len() as u32)`,
then realm, then four zero padding bytes, then the data. -/
def PTCPPayload.serialize (p : PTCPPayload) : List Nat :=
  let length := p.data.length % 0x100000000
  let header := 0x10000000 ||| length
  u32ToBE header ++ u32ToBE p.realm ++ u32ToBE 0 ++ p.data

/-- `PTCPBody` from src/ptcp.rs. -/
inductive PTCPBody where
  | Command : List Nat → PTCPBody
  | Payload : PTCPPayload → PTCPBody
  | Empty : PTCPBody
deriving DecidableEq

/-- A body drawn from the Rust state space (`Vec<u8>` contents, `u32` realm). -/
def PTCPBody.WF : PTCPBody → Prop
  | .Command c => ∀ b ∈ c, b < 256
  | .Payload p => p.WF
  | .Empty => True

instance : (b : PTCPBody) → Decidable b.WF
  | .Command c => inferInstanceAs (Decidable (∀ b ∈ c, b < 256))
  | .Payload p => inferInstanceAs (Decidable p.WF)
  | .Empty => inferInstanceAs (Decidable True)

/-- `PTCPBody::parse`: empty input is `Empty`; otherwise at least 4 bytes are
required, a leading 0x10 byte delegates to the payload parser, and anything
else is an opaque `Command`. -/
def PTCPBody.parse : List Nat → Option PTCPBody
  | [] => some .Empty
  | b0 :: rest =>
    if 4 ≤ (b0 :: rest).length then
      if b0 = 0x10 then
        (PTCPPayload.parse (b0 :: rest)).map PTCPBody.Payload
      else
        some (.Command (b0 :: rest))
    else none

/-- `PTCPBody::serialize`. -/
def PTCPBody.serialize : PTCPBody → List Nat
  | .Command data => data
  | .Payload payload => payload.serialize
  | .Empty => []

/-- `PTCPPacket` from src/ptcp.rs: five `u32` counters plus a body. -/
structure PTCPPacket where
  sent : Nat
  recv : Nat
  pid : Nat
  lmid : Nat
  rmid : Nat
  body : PTCPBody
deriving DecidableEq

/-- A packet drawn from the Rust state space. -/
def PTCPPacket.WF (k : PTCPPacket) : Prop :=
  k.sent < 0x100000000 ∧ k.recv < 0x100000000 ∧ k.pid < 0x100000000 ∧
    k.lmid < 0x100000000 ∧ k.rmid < 0x100000000 ∧ k.body.WF

instance (k : PTCPPacket) : Decidable k.WF :=
  inferInstanceAs (Decidable (_ ∧ _))

/-- `PTCPPacket::parse`: requires ≥ 24 bytes (the match pattern), the ASCII
magic `"PTCP"` (0x50 0x54 0x43 0x50), five big-endian `u32` counters, and a
parseable body in the remaining bytes. -/
def PTCPPacket.parse (buf : List Nat) : Option PTCPPacket :=
  match buf with
  | m0 :: m1 :: m2 :: m3 ::
    s0 :: s1 :: s2 :: s3 :: r0 :: r1 :: r2 :: r3 ::
    p0 :: p1 :: p2 :: p3 :: l0 :: l1 :: l2 :: l3 ::
    e0 :: e1 :: e2 :: e3 :: rest =>
    if m0 = 0x50 ∧ m1 = 0x54 ∧ m2 = 0x43 ∧ m3 = 0x50 then
      match PTCPBody.parse rest with
      | some body =>
        some { sent := u32FromBE s0 s1 s2 s3, recv := u32FromBE r0 r1 r2 r3,
               pid := u32FromBE p0 p1 p2 p3, lmid := u32FromBE l0 l1 l2 l3,
               rmid := u32FromBE e0 e1 e2 e3, body := body }
      | none => none
    else none
  | _ => none

/-- `PTCPPacket::serialize`: magic, the five counters big-endian, the body. -/
def PTCPPacket.serialize (k : PTCPPacket) : List Nat :=
  [0x50, 0x54, 0x43, 0x50] ++ u32ToBE k.sent ++ u32ToBE k.recv ++
    u32ToBE k.pid ++ u32ToBE k.lmid ++ u32ToBE k.rmid ++ k.body.serialize

/-- `PTCPSession` from src/ptcp.rs: five `u32` counters. -/
structure PTCPSession where
  sent : Nat
  recv : Nat
  count : Nat
  id : Nat
  rmid : Nat
deriving DecidableEq

/-- A session drawn from the Rust state space. -/
def PTCPSession.WF (s : PTCPSession) : Prop :=
  s.sent < 0x100000000 ∧ s.recv < 0x100000000 ∧ s.count < 0x100000000 ∧
    s.id < 0x100000000 ∧ s.rmid < 0x100000000

instance (s : PTCPSession) : Decidable s.WF :=
  inferInstanceAs (Decidable (_ ∧ _))

/-- `PTCPSession::new()`. -/
def PTCPSession.new : PTCPSession :=
  { sent := 0, recv := 0, count := 0, id := 0, rmid := 0 }

/-- The ack test in `PTCPSession::send`: a Command whose bytes are exactly
`b"\x00\x03\x01\x00"`. -/
def PTCPBody.isAck : PTCPBody → Bool
  | .Command c => if c = [0x00, 0x03, 0x01, 0x00] then true else false
  | _ => false

/-- The `u32` value added to `sent` (resp. `recv`) for a body:
`c.len() as u32` for Command, `p.data.len() as u32 + 12` for Payload,
`0` for Empty. -/
def PTCPBody.contribution : PTCPBody → Nat
  | .Command c => c.length % 0x100000000
  | .Payload p => (p.data.length % 0x100000000 + 12) % 0x100000000
  | .Empty => 0

/-- `PTCPSession::send`: snapshots the counters into the outgoing packet
(`pid` is `0x0002FFFF` for an ack, else `0x0000FFFF - count`), then updates
`sent`, `id` and `count`.  State updates use wrapping `u32` arithmetic. -/
def PTCPSession.send (s : PTCPSession) (body : PTCPBody) : PTCPPacket × PTCPSession :=
  let ack := body.isAck
  let pkt : PTCPPacket :=
    { sent := s.sent, recv := s.recv,
      pid := if ack then 0x0002FFFF else u32WrapSub 0x0000FFFF s.count,
      lmid := s.id, rmid := s.rmid, body := body }
  let s1 : PTCPSession :=
    { sent := (s.sent + body.contribution) % 0x100000000,
      recv := s.recv,
      count := (s.count +
        (match body with
         | .Command _ => if ack then 0 else 1
         | .Payload _ => 1
         | .Empty => 0)) % 0x100000000,
      id := (s.id + 1) % 0x100000000,
      rmid := s.rmid }
  (pkt, s1)

/-- `PTCPSession::recv` (named `recvPacket` here because the session already
has a `recv` field): adds the body contribution to `recv`, records the
packet's `lmid` into `rmid`, and returns the packet unchanged. -/
def PTCPSession.recvPacket (s : PTCPSession) (packet : PTCPPacket) :
    PTCPPacket × PTCPSession :=
  (packet,
    { s with
      recv := (s.recv + packet.body.contribution) % 0x100000000,
      rmid := packet.lmid })

/-- The 16-bit length portion of a serialized payload header: the low 16
bits of the leading big-endian `u32`, exactly as `PTCPPayload::parse` reads
it.  Buffers shorter than 4 bytes have no header; 0 is returned. -/
def payloadLengthField : List Nat → Nat
  | b0 :: b1 :: b2 :: b3 :: _ => u32FromBE b0 b1 b2 b3 &&& 0xFFFF
  | _ => 0

/-- The 4-byte padding field of a serialized payload (bytes 8–11), read as a
big-endian `u32` exactly as `PTCPPayload::parse` does. -/
def payloadPaddingField : List Nat → Nat
  | _ :: _ :: _ :: _ :: _ :: _ :: _ :: _ :: q0 :: q1 :: q2 :: q3 :: _ =>
    u32FromBE q0 q1 q2 q3
  | _ => 0

/-- The body condition under which `parse ∘ serialize` is the identity on
packets: a Payload needs fewer than 65536 data bytes; a Command needs at
least 4 bytes and a first byte other than 0x10 (else re-parsing fails or
reclassifies the bytes). -/
def PTCPBody.roundtripOK : PTCPBody → Prop
  | .Command c => 4 ≤ c.length ∧ c.headD 0 ≠ 0x10
  | .Payload p => p.data.length < 65536
  | .Empty => True

instance : (b : PTCPBody) → Decidable b.roundtripOK
  | .Command _ => inferInstanceAs (Decidable (_ ∧ _))
  | .Payload _ => inferInstanceAs (Decidable (_ < _))
  | .Empty => inferInstanceAs (Decidable True)

/-! ### Arithmetic helper lemmas -/

/-- Reassembling the four big-endian bytes of `n` recovers `n` mod 2^32. -/
theorem u32FromBE_u32ToBE (n : Nat) :
    u32FromBE (n / 16777216 % 256) (n / 65536 % 256) (n / 256 % 256) (n % 256) =
      n % 4294967296 := by
  unfold u32FromBE
  omega

/-- Bitwise or with a power of two above all bits of `m` is addition. -/
theorem two_pow_lor_of_lt {i m : Nat} (h : m < 2 ^ i) : 2 ^ i ||| m = 2 ^ i + m := by
  apply Nat.eq_of_testBit_eq
  intro j
  rcases Nat.lt_trichotomy j i with hj | hj | hj
  · rw [Nat.testBit_or, Nat.testBit_two_pow_add_gt hj,
      Nat.testBit_two_pow_of_ne (Nat.ne_of_gt hj), Bool.false_or]
  · subst hj
    rw [Nat.testBit_or, Nat.testBit_two_pow_add_eq, Nat.testBit_lt_two_pow h,
      Nat.testBit_two_pow_self]
    rfl
  · have h1 : 2 ^ i + m < 2 ^ j := by
      have : 2 ^ (i + 1) ≤ 2 ^ j := Nat.pow_le_pow_right (by norm_num) hj
      have := Nat.pow_succ 2 i
      omega
    rw [Nat.testBit_or, Nat.testBit_lt_two_pow h1,
      Nat.testBit_two_pow_of_ne (Nat.ne_of_lt hj),
      Nat.testBit_lt_two_pow (lt_trans h (by omega)), Bool.or_self]

/-- The serialized header tag-or-length: for lengths below 2^28 the bitwise
or `0x10000000 ||| m` is plain addition. -/
theorem header_of_small {m : Nat} (h : m < 268435456) :
    268435456 ||| m = 268435456 + m := by
  have := two_pow_lor_of_lt (i := 28) (m := m) (by omega)
  norm_num at this
  exact this

/-- Masking the header to its low 16 bits drops the 0x10 tag byte entirely. -/
theorem header_mask (m : Nat) : (268435456 ||| m) &&& 65535 = m % 65536 := by
  rw [Nat.and_distrib_right]
  have h1 : (268435456 : Nat) &&& 65535 = 0 := by decide
  have h2 : m &&& 65535 = m % 65536 := by
    have := Nat.and_pow_two_sub_one_eq_mod m 16
    norm_num at this
    exact this
  rw [h1, h2, Nat.zero_or]

/-- `header_mask` restated for the additive form of the header. -/
theorem header_add_mask {m : Nat} (h : m < 268435456) :
    (268435456 + m) &&& 65535 = m % 65536 := by
  rw [← header_of_small h, header_mask]

/-! ### Codec round-trip lemmas -/

/-- Payload round trip for data shorter than 65536 bytes. -/
theorem payload_roundtrip_aux (p : PTCPPayload) (hr : p.realm < 4294967296)
    (hl : p.data.length < 65536) :
    PTCPPayload.parse (PTCPPayload.serialize p) = some p := by
  obtain ⟨realm, data⟩ := p
  simp only at hr hl
  simp only [PTCPPayload.serialize, u32ToBE]
  simp only [List.cons_append, List.nil_append]
  rw [Nat.mod_eq_of_lt (show data.length < 4294967296 by omega)]
  rw [header_of_small (show data.length < 268435456 by omega)]
  simp only [PTCPPayload.parse]
  rw [if_pos (show (268435456 + data.length) / 16777216 % 256 = 16 by omega)]
  rw [if_pos (show u32FromBE (0 / 16777216 % 256) (0 / 65536 % 256) (0 / 256 % 256) (0 % 256) = 0
    by norm_num [u32FromBE])]
  rw [u32FromBE_u32ToBE (268435456 + data.length), u32FromBE_u32ToBE realm]
  rw [Nat.mod_eq_of_lt (show 268435456 + data.length < 4294967296 by omega)]
  rw [header_add_mask (show data.length < 268435456 by omega)]
  rw [Nat.mod_eq_of_lt hr]
  rw [if_pos (show data.length % 65536 = data.length % 4294967296 by omega)]

/-- A serialized small payload starts with the 0x10 tag byte and has 11 more
bytes before the data. -/
theorem payload_serialize_head (p : PTCPPayload) (hl : p.data.length < 65536) :
    ∃ t, PTCPPayload.serialize p = 16 :: t ∧ t.length = p.data.length + 11 := by
  obtain ⟨realm, data⟩ := p
  simp only at hl
  simp only [PTCPPayload.serialize, u32ToBE]
  simp only [List.cons_append, List.nil_append]
  rw [Nat.mod_eq_of_lt (show data.length < 4294967296 by omega)]
  rw [header_of_small (show data.length < 268435456 by omega)]
  rw [show (268435456 + data.length) / 16777216 % 256 = 16 by omega]
  exact ⟨_, rfl, by simp⟩

/-- Body round trip under the conditions of `PTCPBody.roundtripOK`. -/
theorem body_roundtrip_aux (b : PTCPBody) (hwf : b.WF) (hok : b.roundtripOK) :
    PTCPBody.parse (PTCPBody.serialize b) = some b := by
  cases b with
  | Empty => rfl
  | Command c =>
    obtain ⟨hlen, hhead⟩ := hok
    match c, hlen with
    | c0 :: rest, hlen =>
      simp only [List.headD_cons] at hhead
      simp only [PTCPBody.serialize, PTCPBody.parse]
      rw [if_pos hlen, if_neg hhead]
  | Payload p =>
    obtain ⟨t, ht, htl⟩ := payload_serialize_head p hok
    simp only [PTCPBody.serialize]
    rw [ht]
    simp only [PTCPBody.parse]
    rw [if_pos (by simp [htl])]
    simp only [if_true]
    rw [← ht, payload_roundtrip_aux p hwf.1 hok]
    rfl

/-! ### Claim theorems -/

/-- Claim C1: for every payload (over the Rust state space) whose data has
fewer than 65536 bytes, `PTCPPayload::parse` applied to
`PTCPPayload::serialize` succeeds and returns an equal payload. -/
theorem payload_roundtrip_of_small (p : PTCPPayload) (hwf : p.WF)
    (hl : p.data.length < 65536) :
    PTCPPayload.parse (PTCPPayload.serialize p) = some p :=
  payload_roundtrip_aux p hwf.1 hl

/-- Witness for C1 at the payload `realm = 7, data = [1, 2, 3]`. -/
theorem payload_roundtrip_of_small_witness :
    (PTCPPayload.mk 7 [1, 2, 3]).WF ∧
    PTCPPayload.parse (PTCPPayload.serialize ⟨7, [1, 2, 3]⟩) = some ⟨7, [1, 2, 3]⟩ :=
  ⟨by decide, payload_roundtrip_of_small ⟨7, [1, 2, 3]⟩ (by decide) (by decide)⟩

/-- Claim C2: a buffer shorter than 24 bytes never parses as a packet, and a
buffer of at least 24 bytes whose first four bytes differ from the ASCII
magic `"PTCP"` never parses as a packet. -/
theorem packet_parse_rejects_short_or_bad_magic (buf : List Nat) :
    (buf.length < 24 → PTCPPacket.parse buf = none) ∧
    (24 ≤ buf.length → buf.take 4 ≠ [0x50, 0x54, 0x43, 0x50] →
      PTCPPacket.parse buf = none) := by
  rcases buf with _ | ⟨m0, buf⟩
  · exact ⟨fun _ => rfl, by intro h; simp at h⟩
  rcases buf with _ | ⟨m1, buf⟩
  · exact ⟨fun _ => rfl, by intro h; simp at h⟩
  rcases buf with _ | ⟨m2, buf⟩
  · exact ⟨fun _ => rfl, by intro h; simp at h⟩
  rcases buf with _ | ⟨m3, buf⟩
  · exact ⟨fun _ => rfl, by intro h; simp at h⟩
  rcases buf with _ | ⟨a4, buf⟩
  · exact ⟨fun _ => rfl, by intro h; simp at h⟩
  rcases buf with _ | ⟨a5, buf⟩
  · exact ⟨fun _ => rfl, by intro h; simp at h⟩
  rcases buf with _ | ⟨a6, buf⟩
  · exact ⟨fun _ => rfl, by intro h; simp at h⟩
  rcases buf with _ | ⟨a7, buf⟩
  · exact ⟨fun _ => rfl, by intro h; simp at h⟩
  rcases buf with _ | ⟨a8, buf⟩
  · exact ⟨fun _ => rfl, by intro h; simp at h⟩
  rcases buf with _ | ⟨a9, buf⟩
  · exact ⟨fun _ => rfl, by intro h; simp at h⟩
  rcases buf with _ | ⟨a10, buf⟩
  · exact ⟨fun _ => rfl, by intro h; simp at h⟩
  rcases buf with _ | ⟨a11, buf⟩
  · exact ⟨fun _ => rfl, by intro h; simp at h⟩
  rcases buf with _ | ⟨a12, buf⟩
  · exact ⟨fun _ => rfl, by intro h; simp at h⟩
  rcases buf with _ | ⟨a13, buf⟩
  · exact ⟨fun _ => rfl, by intro h; simp at h⟩
  rcases buf with _ | ⟨a14, buf⟩
  · exact ⟨fun _ => rfl, by intro h; simp at h⟩
  rcases buf with _ | ⟨a15, buf⟩
  · exact ⟨fun _ => rfl, by intro h; simp at h⟩
  rcases buf with _ | ⟨a16, buf⟩
  · exact ⟨fun _ => rfl, by intro h; simp at h⟩
  rcases buf with _ | ⟨a17, buf⟩
  · exact ⟨fun _ => rfl, by intro h; simp at h⟩
  rcases buf with _ | ⟨a18, buf⟩
  · exact ⟨fun _ => rfl, by intro h; simp at h⟩
  rcases buf with _ | ⟨a19, buf⟩
  · exact ⟨fun _ => rfl, by intro h; simp at h⟩
  rcases buf with _ | ⟨a20, buf⟩
  · exact ⟨fun _ => rfl, by intro h; simp at h⟩
  rcases buf with _ | ⟨a21, buf⟩
  · exact ⟨fun _ => rfl, by intro h; simp at h⟩
  rcases buf with _ | ⟨a22, buf⟩
  · exact ⟨fun _ => rfl, by intro h; simp at h⟩
  rcases buf with _ | ⟨a23, buf⟩
  · exact ⟨fun _ => rfl, by intro h; simp at h⟩
  refine ⟨fun h => by simp at h; omega, fun _ hm => ?_⟩
  simp only [List.take] at hm
  simp only [PTCPPacket.parse]
  rw [if_neg]
  intro ⟨e0, e1, e2, e3⟩
  exact hm (by rw [e0, e1, e2, e3])

/-- Witness for C2 at the empty buffer and at 24 zero bytes. -/
theorem packet_parse_rejects_witness :
    PTCPPacket.parse [] = none ∧ PTCPPacket.parse (List.replicate 24 0) = none :=
  ⟨(packet_parse_rejects_short_or_bad_magic []).1 (by decide),
   (packet_parse_rejects_short_or_bad_magic (List.replicate 24 0)).2
     (by decide) (by decide)⟩

/-- Claim C3: from a fresh session, sending the Command `[0,1,2,3]` produces
the packet with all-zero counters, `pid = 0x0000FFFF` and the same body, and
leaves the session at `sent = 4, recv = 0, count = 1, id = 1, rmid = 0`. -/
theorem send_first_command_from_fresh :
    PTCPSession.new.send (.Command [0x00, 0x01, 0x02, 0x03]) =
      ({ sent := 0, recv := 0, pid := 0x0000FFFF, lmid := 0, rmid := 0,
         body := .Command [0x00, 0x01, 0x02, 0x03] },
       { sent := 4, recv := 0, count := 1, id := 1, rmid := 0 }) := by
  decide

/-- Claim C4: for every session state, sending the ack Command
`[0x00, 0x03, 0x01, 0x00]` yields `pid = 0x0002FFFF` and leaves `count`
unchanged. -/
theorem send_ack_pid_and_count (s : PTCPSession) (h : s.WF) :
    (s.send (.Command [0x00, 0x03, 0x01, 0x00])).1.pid = 0x0002FFFF ∧
    (s.send (.Command [0x00, 0x03, 0x01, 0x00])).2.count = s.count := by
  obtain ⟨c1, c2, c3, c4, c5⟩ := h
  constructor
  · simp [PTCPSession.send, PTCPBody.isAck]
  · simp [PTCPSession.send, PTCPBody.isAck]
    omega

/-- Witness for C4 at the fresh session. -/
theorem send_ack_pid_and_count_witness :
    (PTCPSession.new.send (.Command [0x00, 0x03, 0x01, 0x00])).1.pid = 0x0002FFFF ∧
    (PTCPSession.new.send (.Command [0x00, 0x03, 0x01, 0x00])).2.count =
      PTCPSession.new.count :=
  send_ack_pid_and_count PTCPSession.new (by decide)

/-- Claim C5: `Session::recv` returns its argument unchanged, adds the body
contribution (as a `u32`) to the `recv` counter — exactly, whenever the sum
does not overflow — sets `rmid` to the packet's `lmid`, and touches no other
field. -/
theorem recvPacket_passthrough_updates (s : PTCPSession) (k : PTCPPacket) :
    (s.recvPacket k).1 = k ∧
    (s.recvPacket k).2.recv = (s.recv + k.body.contribution) % 0x100000000 ∧
    (s.recvPacket k).2.rmid = k.lmid ∧
    (s.recvPacket k).2.sent = s.sent ∧
    (s.recvPacket k).2.count = s.count ∧
    (s.recvPacket k).2.id = s.id ∧
    (s.recv + k.body.contribution < 0x100000000 →
      (s.recvPacket k).2.recv = s.recv + k.body.contribution) := by
  refine ⟨rfl, rfl, rfl, rfl, rfl, rfl, fun h => ?_⟩
  simp only [PTCPSession.recvPacket]
  omega

/-- Witness for C5: receiving a packet whose body is a Payload with 12 data
bytes adds 24 to `recv` and copies `lmid` into `rmid`. -/
theorem recvPacket_passthrough_updates_witness :
    (PTCPSession.new.recvPacket
        ⟨0, 0, 0, 9, 0, .Payload ⟨5, List.replicate 12 0⟩⟩).1 =
      ⟨0, 0, 0, 9, 0, .Payload ⟨5, List.replicate 12 0⟩⟩ ∧
    (PTCPSession.new.recvPacket
        ⟨0, 0, 0, 9, 0, .Payload ⟨5, List.replicate 12 0⟩⟩).2.recv = 24 ∧
    (PTCPSession.new.recvPacket
        ⟨0, 0, 0, 9, 0, .Payload ⟨5, List.replicate 12 0⟩⟩).2.rmid = 9 := by
  have h := recvPacket_passthrough_updates PTCPSession.new
    ⟨0, 0, 0, 9, 0, .Payload ⟨5, List.replicate 12 0⟩⟩
  exact ⟨h.1, (h.2.2.2.2.2.2 (by decide)).trans (by decide), h.2.2.1⟩

/-- Counterexample for C6 as stated: the packet with body `Command [0x00]`
satisfies the payload condition vacuously, yet serializing and re-parsing it
fails (the 1-byte body is rejected), so the round trip does not hold for
every packet meeting only the payload condition. -/
theorem packet_roundtrip_counterexample :
    PTCPPacket.parse (PTCPPacket.serialize ⟨0, 0, 0, 0, 0, PTCPBody.Command [0]⟩) =
      none := by
  decide

/-- Claim C6 (amended): for every packet over the Rust state space whose body
additionally satisfies the Command conditions of `PTCPBody.roundtripOK`
(at least 4 bytes, first byte ≠ 0x10) besides the stated Payload condition,
`PTCPPacket::parse` applied to `PTCPPacket::serialize` succeeds and returns a
packet equal in all five counters and in the body. -/
theorem packet_roundtrip_of_bodyOK (k : PTCPPacket) (hwf : k.WF)
    (hok : k.body.roundtripOK) :
    PTCPPacket.parse (PTCPPacket.serialize k) = some k := by
  obtain ⟨sent, recv, pid, lmid, rmid, body⟩ := k
  obtain ⟨h1, h2, h3, h4, h5, h6⟩ := hwf
  simp only at h1 h2 h3 h4 h5 h6 hok
  simp only [PTCPPacket.serialize, u32ToBE]
  simp only [List.cons_append, List.nil_append]
  simp only [PTCPPacket.parse]
  rw [body_roundtrip_aux body h6 hok]
  norm_num
  rw [u32FromBE_u32ToBE sent, u32FromBE_u32ToBE recv, u32FromBE_u32ToBE pid,
    u32FromBE_u32ToBE lmid, u32FromBE_u32ToBE rmid]
  rw [Nat.mod_eq_of_lt h1, Nat.mod_eq_of_lt h2, Nat.mod_eq_of_lt h3,
    Nat.mod_eq_of_lt h4, Nat.mod_eq_of_lt h5]
  exact ⟨rfl, rfl, rfl, rfl, rfl⟩

/-- Witness for C6 at a packet with distinct counters and a 4-byte Command. -/
theorem packet_roundtrip_of_bodyOK_witness :
    (PTCPPacket.mk 1 2 3 4 5 (.Command [9, 9, 9, 9])).WF ∧
    PTCPPacket.parse (PTCPPacket.serialize ⟨1, 2, 3, 4, 5, .Command [9, 9, 9, 9]⟩) =
      some ⟨1, 2, 3, 4, 5, .Command [9, 9, 9, 9]⟩ :=
  ⟨by decide,
   packet_roundtrip_of_bodyOK ⟨1, 2, 3, 4, 5, .Command [9, 9, 9, 9]⟩
     (by decide) (by decide)⟩

/-- Counterexample for C7 as stated: at data length exactly 2^32 the
`as u32` cast in serialize truncates the written length to 0, the masked
comparison in parse also sees 0, and the round trip succeeds — so it is not
true that every payload with more than 65535 data bytes fails to round-trip. -/
theorem payload_u32_wrap_roundtrip_counterexample :
    65535 < (List.replicate 4294967296 (0 : Nat)).length ∧
    PTCPPayload.parse (PTCPPayload.serialize ⟨0, List.replicate 4294967296 0⟩) =
      some ⟨0, List.replicate 4294967296 0⟩ := by
  constructor
  · rw [List.length_replicate]
    norm_num
  · simp only [PTCPPayload.serialize, List.length_replicate]
    norm_num
    rw [show u32ToBE 268435456 = [16, 0, 0, 0] by norm_num [u32ToBE],
      show u32ToBE 0 = [0, 0, 0, 0] by norm_num [u32ToBE]]
    simp only [List.cons_append, List.nil_append]
    simp only [PTCPPayload.parse]
    rw [List.length_replicate]
    norm_num [u32FromBE]
    decide

/-- Claim C7 (amended): for every payload whose data length lies strictly
between 65535 and 2^32, serialize writes the length unmasked while parse
masks it to 16 bits, and the re-parse fails outright. -/
theorem payload_oversized_parse_fails (p : PTCPPayload) (h1 : 65535 < p.data.length)
    (h2 : p.data.length < 4294967296) :
    PTCPPayload.parse (PTCPPayload.serialize p) = none := by
  obtain ⟨realm, data⟩ := p
  simp only at h1 h2
  have hlt : (268435456 ||| data.length) < 4294967296 := by
    have := Nat.or_lt_two_pow (x := 268435456) (y := data.length) (n := 32)
      (by norm_num) (by norm_num; omega)
    norm_num at this
    exact this
  simp only [PTCPPayload.serialize, u32ToBE]
  simp only [List.cons_append, List.nil_append]
  rw [Nat.mod_eq_of_lt h2]
  simp only [PTCPPayload.parse]
  by_cases hb : (268435456 ||| data.length) / 16777216 % 256 = 16
  · rw [if_pos hb]
    rw [if_pos (show u32FromBE (0 / 16777216 % 256) (0 / 65536 % 256) (0 / 256 % 256) (0 % 256) = 0
      by norm_num [u32FromBE])]
    rw [u32FromBE_u32ToBE (268435456 ||| data.length)]
    rw [Nat.mod_eq_of_lt hlt, header_mask]
    rw [if_neg (show ¬(data.length % 65536 = data.length % 4294967296) by omega)]
  · rw [if_neg hb]

/-- Witness for C7 at a payload of 65536 zero bytes. -/
theorem payload_oversized_parse_fails_witness :
    65535 < (List.replicate 65536 (0 : Nat)).length ∧
    PTCPPayload.parse (PTCPPayload.serialize ⟨0, List.replicate 65536 0⟩) = none :=
  ⟨by rw [List.length_replicate]; norm_num,
   payload_oversized_parse_fails ⟨0, List.replicate 65536 0⟩
     (by rw [List.length_replicate]; norm_num)
     (by rw [List.length_replicate]; norm_num)⟩

/-- Counterexample for C8 as stated: for the payload of 65536 zero bytes the
16-bit length portion of the serialized header is 0, not the data length. -/
theorem payload_length_field_counterexample :
    (List.replicate 65536 (0 : Nat)).length = 65536 ∧
    payloadLengthField (PTCPPayload.serialize ⟨0, List.replicate 65536 0⟩) = 0 := by
  refine ⟨List.length_replicate 65536 0, ?_⟩
  simp only [PTCPPayload.serialize, List.length_replicate]
  rw [Nat.mod_eq_of_lt (by norm_num)]
  rw [header_of_small (by norm_num)]
  norm_num
  rw [show u32ToBE 268500992 = [16, 1, 0, 0] by norm_num [u32ToBE],
    show u32ToBE 0 = [0, 0, 0, 0] by norm_num [u32ToBE]]
  simp only [List.cons_append, List.nil_append]
  simp only [payloadLengthField]
  decide

/-- Claim C8 (amended): every serialized payload has total length
`data.len() + 12` and a zero 4-byte padding field; the 16-bit length portion
of the header equals `data.len()` whenever `data.len() < 65536` (above that
only the low 16 bits are stored). -/
theorem payload_serialize_field_invariant (p : PTCPPayload) :
    (PTCPPayload.serialize p).length = p.data.length + 12 ∧
    payloadPaddingField (PTCPPayload.serialize p) = 0 ∧
    (p.data.length < 65536 →
      payloadLengthField (PTCPPayload.serialize p) = p.data.length) := by
  obtain ⟨realm, data⟩ := p
  simp only [PTCPPayload.serialize, u32ToBE]
  simp only [List.cons_append, List.nil_append]
  refine ⟨by simp, by norm_num [payloadPaddingField, u32FromBE], fun hl => ?_⟩
  simp only at hl
  rw [Nat.mod_eq_of_lt (show data.length < 4294967296 by omega)]
  rw [header_of_small (show data.length < 268435456 by omega)]
  simp only [payloadLengthField]
  rw [u32FromBE_u32ToBE (268435456 + data.length)]
  rw [Nat.mod_eq_of_lt (show 268435456 + data.length < 4294967296 by omega)]
  rw [header_add_mask (show data.length < 268435456 by omega)]
  omega

/-- Witness for C8 at the payload `realm = 3, data = [7, 8]`. -/
theorem payload_serialize_field_invariant_witness :
    (PTCPPayload.serialize ⟨3, [7, 8]⟩).length = 14 ∧
    payloadPaddingField (PTCPPayload.serialize ⟨3, [7, 8]⟩) = 0 ∧
    payloadLengthField (PTCPPayload.serialize ⟨3, [7, 8]⟩) = 2 := by
  have h := payload_serialize_field_invariant ⟨3, [7, 8]⟩
  exact ⟨h.1, h.2.1, h.2.2 (by decide)⟩

/-- Claim C9: re-parsing a serialized Command body returns the same Command
exactly when the Command has at least 4 bytes and does not start with 0x10;
a 1–3 byte Command fails to re-parse, and a Command starting with 0x10 is
only ever reclassified as a Payload. -/
theorem command_body_roundtrip_iff (c : List Nat) :
    (PTCPBody.parse (PTCPBody.serialize (.Command c)) = some (.Command c) ↔
      4 ≤ c.length ∧ c.headD 0 ≠ 0x10) ∧
    (1 ≤ c.length → c.length ≤ 3 →
      PTCPBody.parse (PTCPBody.serialize (.Command c)) = none) ∧
    (c.headD 0 = 0x10 → ∀ b, PTCPBody.parse (PTCPBody.serialize (.Command c)) = some b →
      ∃ q, b = PTCPBody.Payload q) := by
  rcases c with _ | ⟨c0, rest⟩
  · exact ⟨by simp [PTCPBody.parse, PTCPBody.serialize],
      by intro h _; simp at h,
      by intro h; simp at h⟩
  simp only [PTCPBody.serialize, PTCPBody.parse, List.headD_cons]
  by_cases h4 : 4 ≤ (c0 :: rest).length
  · rw [if_pos h4]
    by_cases h16 : c0 = 16
    · subst h16
      rw [if_pos rfl]
      refine ⟨?_, ?_, ?_⟩
      · constructor
        · intro hmap
          cases hp : PTCPPayload.parse (16 :: rest) with
          | none => rw [hp] at hmap; simp at hmap
          | some q => rw [hp] at hmap; simp at hmap
        · intro ⟨_, hh⟩
          exact absurd rfl hh
      · intro _ h3
        simp only [List.length_cons] at h3 h4
        omega
      · intro _ b hb
        cases hp : PTCPPayload.parse (16 :: rest) with
        | none => rw [hp] at hb; simp at hb
        | some q =>
          rw [hp] at hb
          simp at hb
          exact ⟨q, hb.symm⟩
    · rw [if_neg h16]
      refine ⟨⟨fun _ => ⟨h4, h16⟩, fun _ => rfl⟩, ?_, fun hc => absurd hc h16⟩
      intro _ h3
      simp only [List.length_cons] at h3 h4
      omega
  · rw [if_neg h4]
    exact ⟨⟨fun hcontra => by simp at hcontra, fun hl => absurd hl.1 h4⟩,
      fun _ _ => rfl, fun _ b hb => by simp at hb⟩

/-- Witness for C9 at the 1-byte Command `[0x10]`: re-parsing fails. -/
theorem command_body_roundtrip_iff_witness :
    PTCPBody.parse (PTCPBody.serialize (.Command [0x10])) = none ∧
    ¬(4 ≤ ([0x10] : List Nat).length ∧ ([0x10] : List Nat).headD 0 ≠ 0x10) :=
  ⟨(command_body_roundtrip_iff [0x10]).2.1 (by decide) (by decide), by decide⟩

/-- Claim C10: in a non-ack send the Rust expression `0x0000FFFF - count` is
an unguarded `u32` subtraction: when `count ≤ 0x0000FFFF` it does not
underflow and the produced `pid` equals `0x0000FFFF - count`, while for any
state with `count > 0x0000FFFF` the checked subtraction hits its underflow
branch, so the precondition is required for totality. -/
theorem send_pid_subtraction_guard (s : PTCPSession) (b : PTCPBody) (hwf : s.WF)
    (hna : b.isAck = false) :
    (s.count ≤ 0x0000FFFF →
      u32CheckedSub 0x0000FFFF s.count = some ((s.send b).1.pid) ∧
      (s.send b).1.pid = 0x0000FFFF - s.count) ∧
    (0x0000FFFF < s.count → u32CheckedSub 0x0000FFFF s.count = none) := by
  obtain ⟨c1, c2, c3, c4, c5⟩ := hwf
  constructor
  · intro hle
    have hpid : (s.send b).1.pid = 0x0000FFFF - s.count := by
      simp [PTCPSession.send, hna, u32WrapSub]
      omega
    exact ⟨by rw [hpid]; simp [u32CheckedSub, hle], hpid⟩
  · intro hgt
    simp only [u32CheckedSub]
    rw [if_neg]
    omega

/-- Witness for C10: a fresh session sending `Empty` gets
`pid = 0x0000FFFF - 0` with no underflow. -/
theorem send_pid_subtraction_guard_witness :
    u32CheckedSub 0x0000FFFF PTCPSession.new.count =
      some ((PTCPSession.new.send .Empty).1.pid) ∧
    (PTCPSession.new.send .Empty).1.pid = 0x0000FFFF - PTCPSession.new.count :=
  (send_pid_subtraction_guard PTCPSession.new .Empty (by decide) (by decide)).1
    (by decide)
